import Mathlib

/-!
Verification of the event-sourced domain layer of `fastapi-eventsourcing`.

The domain aggregates (`Unit`, `Tenant`, `Lease`), their command bodies and
the repository composition are translated from `src/src/domain/models.py` and
`src/src/domain/repositories.py`.  The generic aggregate runtime (the
`@event` decorator machinery of the `eventsourcing` library: version
tracking, pending-event lists, the event-sourced notification log and the
transcoder registry) is not part of the repository's own sources; those
parts are modelled from the specification (sections 4.2 to 4.5) and are
marked as such on each definition.

Wall-clock time (`datetime.now()`) is made explicit: every state transition
that reads the clock receives a `Clock` value.  Machine integers do not
overflow in the modelled code paths, so integers are `Nat`/`Int`.
-/

namespace ES

/-- The wall clock, made explicit: `now` stands for the value of
`datetime.now()` (as an abstract timestamp) and `year` for
`datetime.now().year` at the instant a transition body runs. -/
structure Clock where
  now : Nat
  year : Int
  deriving DecidableEq, Repr

/-- A calendar date, as Python's `datetime.date` triple. -/
structure Date where
  year : Nat
  month : Nat
  day : Nat
  deriving DecidableEq, Repr

/-- Python's lexicographic comparison `a >= b` on `datetime.date`. -/
def Date.bge (a b : Date) : Bool :=
  decide (b.year < a.year ∨ (b.year = a.year ∧
    (b.month < a.month ∨ (b.month = a.month ∧ b.day ≤ a.day))))

/-- The Gregorian leap-year rule used by `datetime.date`. -/
def isLeapYear (y : Nat) : Bool :=
  decide (y % 4 = 0 ∧ (y % 100 ≠ 0 ∨ y % 400 = 0))

/-- Number of days in a month, as validated by `datetime.date`. -/
def daysInMonth (y m : Nat) : Nat :=
  if m = 2 then (if isLeapYear y then 29 else 28)
  else if m = 4 ∨ m = 6 ∨ m = 9 ∨ m = 11 then 30
  else 31

/-- The validity check performed by the `datetime.date` constructor
(`MINYEAR = 1`, `MAXYEAR = 9999`). -/
def dateValid (y m d : Nat) : Bool :=
  decide (1 ≤ y ∧ y ≤ 9999 ∧ 1 ≤ m ∧ m ≤ 12 ∧ 1 ≤ d ∧ d ≤ daysInMonth y m)

/-- The character for one decimal digit. -/
def digitChar (d : Nat) : Char :=
  match d with
  | 0 => '0' | 1 => '1' | 2 => '2' | 3 => '3' | 4 => '4'
  | 5 => '5' | 6 => '6' | 7 => '7' | 8 => '8' | _ => '9'

/-- Numeric value of a decimal digit character. -/
def digitVal (c : Char) : Nat := c.toNat - 48

/-- Big-endian decimal digit characters of a natural number (empty for 0). -/
def natChars (n : Nat) : List Char :=
  ((Nat.digits 10 n).map digitChar).reverse

/-- Zero-padded decimal rendering to width `w`, as Python's `%0wd`. -/
def padNum (w n : Nat) : List Char :=
  List.replicate (w - (natChars n).length) '0' ++ natChars n

/-- Value of a non-empty all-digit character run, as Python's `int(str)`. -/
def charsToNat (cs : List Char) : Option Nat :=
  if cs ≠ [] ∧ cs.all (fun c => c.isDigit)
  then some (Nat.ofDigits 10 ((cs.map digitVal).reverse))
  else none

/-- `DateTranscoding.encode` from `src/src/domain/repositories.py`:
`obj.isoformat()`, the `YYYY-MM-DD` rendering of a date. -/
def DateTranscoding.encode (d : Date) : String :=
  ⟨padNum 4 d.year ++ '-' :: (padNum 2 d.month ++ '-' :: padNum 2 d.day)⟩

/-- `DateTranscoding.decode` from `src/src/domain/repositories.py`:
`date.fromisoformat`, the fixed-position `YYYY-MM-DD` parse followed by the
`datetime.date` constructor's validation. -/
def DateTranscoding.decode (s : String) : Option Date :=
  match s.data with
  | [y1, y2, y3, y4, h1, m1, m2, h2, d1, d2] =>
    if h1 = '-' ∧ h2 = '-' then
      match charsToNat [y1, y2, y3, y4], charsToNat [m1, m2],
            charsToNat [d1, d2] with
      | some y, some m, some d =>
        if dateValid y m d then some ⟨y, m, d⟩ else none
      | _, _, _ => none
    else none
  | _ => none

/-- Result of running one command on an in-memory aggregate.  Modelled from
the spec (section 4.2): on success the produced event is recorded and the
version advances; on a validation error no event is produced and the
version does not advance.  `state` is the in-memory object after the call,
including any field assignments the Python body performed before raising. -/
structure CmdResult (σ ε : Type) where
  state : σ
  events : List ε
  error : Option String
  deriving DecidableEq, Repr

/-- The `Unit` aggregate's derived state, from `src/src/domain/models.py`.
`id` is the library-assigned aggregate identifier and `version` the
runtime's event counter (spec, section 3). -/
structure Unit where
  id : Nat
  address : String
  amenities : List String
  is_leasable : Bool
  is_leased : Bool
  built_in : Option Int
  created_at : Nat
  version : Nat
  deriving DecidableEq, Repr

/-- The events of the `Unit` aggregate, one per decorated method. -/
inductive UnitEvent where
  | Created (address : String) (amenities : Option (List String))
      (built_in : Option Int)
  | MarkedAsLeased
  | MarkedAsAvailable
  | MarkedAsUnleasable
  | MarkedAsLeasable
  | AmenitiesUpdated (amenities : List String)
  | AddressUpdated (address : String)
  | BuiltInYearUpdated (year : Int)
  deriving DecidableEq, Repr

/-- Body of `Unit.__init__` (the `Created` transition).  `amenities or []`
replaces a missing or empty list by `[]`; `created_at` is assigned from the
wall clock inside the body. -/
def Unit.init_body (clk : Clock) (id : Nat) (address : String)
    (amenities : Option (List String)) (built_in : Option Int) : Unit :=
  { id := id
    address := address
    amenities := match amenities with
                 | none => []
                 | some a => if a = [] then [] else a
    is_leasable := true
    is_leased := false
    built_in := built_in
    created_at := clk.now
    version := 1 }

/-- The transition bodies of the non-creation `Unit` events, exactly as the
decorated method bodies in `src/src/domain/models.py` execute them: field
assignments happen in order, and the returned state keeps every assignment
made before a `raise`.  A `Created` event on an existing aggregate is an
invalid sequence. -/
def Unit.applyEvent (clk : Clock) (u : Unit) : UnitEvent → Unit × Option String
  | .Created _ _ _ => (u, some ("InvalidEventSequence"))
  | .MarkedAsLeased =>
    if !u.is_leasable then (u, some ("Unit is not leasable"))
    else ({ u with is_leased := true }, none)
  | .MarkedAsAvailable => ({ u with is_leased := false }, none)
  | .MarkedAsUnleasable => ({ u with is_leasable := false }, none)
  | .MarkedAsLeasable => ({ u with is_leasable := true }, none)
  | .AmenitiesUpdated amenities => ({ u with amenities := amenities }, none)
  | .AddressUpdated address => ({ u with address := address }, none)
  | .BuiltInYearUpdated year =>
    if ¬ (1800 ≤ year ∧ year ≤ clk.year) then
      (u, some ("Built-in year must be between 1800 and the current year"))
    else ({ u with built_in := some year }, none)

/-- Modelled from the spec: the aggregate runtime around one command
(section 4.2).  The body runs; on success the version advances by one and
the event joins the pending list; on failure no event is produced and the
version is unchanged, while the body's partial field assignments remain on
the in-memory object. -/
def Unit.runCmd (clk : Clock) (u : Unit) (e : UnitEvent) :
    CmdResult Unit UnitEvent :=
  match Unit.applyEvent clk u e with
  | (u1, some err) => { state := u1, events := [], error := some err }
  | (u1, none) =>
    { state := { u1 with version := u.version + 1 }
      events := [e]
      error := none }

/-- `Unit.create`: builds the aggregate by triggering `Created`. -/
def Unit.create (clk : Clock) (id : Nat) (address : String)
    (amenities : Option (List String)) (built_in : Option Int) :
    CmdResult Unit UnitEvent :=
  { state := Unit.init_body clk id address amenities built_in
    events := [UnitEvent.Created address amenities built_in]
    error := none }

/-- `Unit.mark_as_leased`. -/
def Unit.mark_as_leased (clk : Clock) (u : Unit) : CmdResult Unit UnitEvent :=
  Unit.runCmd clk u UnitEvent.MarkedAsLeased

/-- `Unit.mark_as_available`. -/
def Unit.mark_as_available (clk : Clock) (u : Unit) : CmdResult Unit UnitEvent :=
  Unit.runCmd clk u UnitEvent.MarkedAsAvailable

/-- `Unit.mark_as_unleasable`. -/
def Unit.mark_as_unleasable (clk : Clock) (u : Unit) : CmdResult Unit UnitEvent :=
  Unit.runCmd clk u UnitEvent.MarkedAsUnleasable

/-- `Unit.mark_as_leasable`. -/
def Unit.mark_as_leasable (clk : Clock) (u : Unit) : CmdResult Unit UnitEvent :=
  Unit.runCmd clk u UnitEvent.MarkedAsLeasable

/-- `Unit.update_amenities`. -/
def Unit.update_amenities (clk : Clock) (u : Unit) (amenities : List String) :
    CmdResult Unit UnitEvent :=
  Unit.runCmd clk u (UnitEvent.AmenitiesUpdated amenities)

/-- `Unit.update_address`. -/
def Unit.update_address (clk : Clock) (u : Unit) (address : String) :
    CmdResult Unit UnitEvent :=
  Unit.runCmd clk u (UnitEvent.AddressUpdated address)

/-- `Unit.update_built_in_year`. -/
def Unit.update_built_in_year (clk : Clock) (u : Unit) (year : Int) :
    CmdResult Unit UnitEvent :=
  Unit.runCmd clk u (UnitEvent.BuiltInYearUpdated year)

/-- Modelled from the spec: the replay fold (section 4.2) over the events
after the creation event; the version counter advances by one per folded
event, and a failing body signals an invalid event sequence. -/
def Unit.replayFrom (clk : Clock) : Unit → List UnitEvent → Option Unit
  | u, [] => some u
  | u, e :: rest =>
    match Unit.applyEvent clk u e with
    | (_, some _) => none
    | (u1, none) => Unit.replayFrom clk { u1 with version := u.version + 1 } rest

/-- Modelled from the spec: replay of a full `Unit` event stream, oldest
first; the stream must begin with `Created` (section 4.2). -/
def Unit.replay (clk : Clock) (id : Nat) : List UnitEvent → Option Unit
  | UnitEvent.Created a am bi :: rest =>
    Unit.replayFrom clk (Unit.init_body clk id a am bi) rest
  | _ => none

/-- The `Lease` aggregate's derived state, from `src/src/domain/models.py`. -/
structure Lease where
  id : Nat
  unit_id : Nat
  tenant_ids : List Nat
  start_date : Date
  end_date : Date
  generated_at : Nat
  signed_at : Option Nat
  signed_by_tenant : Bool
  version : Nat
  deriving DecidableEq, Repr

/-- The events of the `Lease` aggregate, one per decorated method. -/
inductive LeaseEvent where
  | Created (unit_id : Nat) (tenant_ids : List Nat) (start_date : Date)
      (end_date : Date)
  | SignedByTenant
  | TenantAdded (tenant_id : Nat)
  | TenantRemoved (tenant_id : Nat)
  | DateUpdated (start_date : Option Date) (end_date : Option Date)
  deriving DecidableEq, Repr

/-- Body of `Lease.__init__` (the `Created` transition); `generated_at` is
assigned from the wall clock inside the body. -/
def Lease.init_body (clk : Clock) (id unit_id : Nat) (tenant_ids : List Nat)
    (start_date end_date : Date) : Lease :=
  { id := id
    unit_id := unit_id
    tenant_ids := tenant_ids
    start_date := start_date
    end_date := end_date
    generated_at := clk.now
    signed_at := none
    signed_by_tenant := false
    version := 1 }

/-- The transition bodies of the non-creation `Lease` events, exactly as the
decorated method bodies execute: `sign_by_tenant` reads the clock;
`add_tenant` appends only a missing id; `remove_tenant` removes the first
occurrence of a present id; `update_dates` first assigns the given dates
and only then checks `start_date >= end_date`, so the returned state keeps
the assignments even when the check fails. -/
def Lease.applyEvent (clk : Clock) (l : Lease) : LeaseEvent → Lease × Option String
  | .Created _ _ _ _ => (l, some ("InvalidEventSequence"))
  | .SignedByTenant =>
    ({ l with signed_by_tenant := true, signed_at := some clk.now }, none)
  | .TenantAdded t =>
    if t ∉ l.tenant_ids then ({ l with tenant_ids := l.tenant_ids ++ [t] }, none)
    else (l, none)
  | .TenantRemoved t =>
    if t ∈ l.tenant_ids then ({ l with tenant_ids := l.tenant_ids.erase t }, none)
    else (l, none)
  | .DateUpdated sd ed =>
    let l1 := match sd with
              | some d => { l with start_date := d }
              | none => l
    let l2 := match ed with
              | some d => { l1 with end_date := d }
              | none => l1
    if Date.bge l2.start_date l2.end_date then
      (l2, some ("End date must be after start date"))
    else (l2, none)

/-- Modelled from the spec: the aggregate runtime around one `Lease`
command, as for `Unit.runCmd`. -/
def Lease.runCmd (clk : Clock) (l : Lease) (e : LeaseEvent) :
    CmdResult Lease LeaseEvent :=
  match Lease.applyEvent clk l e with
  | (l1, some err) => { state := l1, events := [], error := some err }
  | (l1, none) =>
    { state := { l1 with version := l.version + 1 }
      events := [e]
      error := none }

/-- `Lease.create`: validates the dates before triggering `Created`, so an
invalid pair produces no aggregate and no event. -/
def Lease.create (clk : Clock) (id unit_id : Nat) (tenant_ids : List Nat)
    (start_date end_date : Date) : Except String Lease :=
  if Date.bge start_date end_date then
    Except.error ("End date must be after start date")
  else
    Except.ok (Lease.init_body clk id unit_id tenant_ids start_date end_date)

/-- `Lease.sign_by_tenant`. -/
def Lease.sign_by_tenant (clk : Clock) (l : Lease) : CmdResult Lease LeaseEvent :=
  Lease.runCmd clk l LeaseEvent.SignedByTenant

/-- `Lease.add_tenant`. -/
def Lease.add_tenant (clk : Clock) (l : Lease) (t : Nat) :
    CmdResult Lease LeaseEvent :=
  Lease.runCmd clk l (LeaseEvent.TenantAdded t)

/-- `Lease.remove_tenant`. -/
def Lease.remove_tenant (clk : Clock) (l : Lease) (t : Nat) :
    CmdResult Lease LeaseEvent :=
  Lease.runCmd clk l (LeaseEvent.TenantRemoved t)

/-- `Lease.update_dates`. -/
def Lease.update_dates (clk : Clock) (l : Lease) (sd ed : Option Date) :
    CmdResult Lease LeaseEvent :=
  Lease.runCmd clk l (LeaseEvent.DateUpdated sd ed)

/-- Modelled from the spec: replay of a full `Lease` event stream, as for
`Unit.replay`. -/
def Lease.replayFrom (clk : Clock) : Lease → List LeaseEvent → Option Lease
  | l, [] => some l
  | l, e :: rest =>
    match Lease.applyEvent clk l e with
    | (_, some _) => none
    | (l1, none) => Lease.replayFrom clk { l1 with version := l.version + 1 } rest

/-- Modelled from the spec: replay of a full `Lease` event stream. -/
def Lease.replay (clk : Clock) (id : Nat) : List LeaseEvent → Option Lease
  | LeaseEvent.Created uid tids sd ed :: rest =>
    Lease.replayFrom clk (Lease.init_body clk id uid tids sd ed) rest
  | _ => none

/-- A notification-log entry (spec, section 3): a globally increasing
`position`, the logged aggregate's id, and the aggregate's version at the
moment the entry was appended. -/
structure LogEntry where
  position : Nat
  aggregate_id : Nat
  originator_version : Nat
  deriving DecidableEq, Repr

/-- One repository's durable state: the per-kind event table (pairs of
aggregate id and event, in append order) and that kind's notification log. -/
structure RepoState (ε : Type) where
  events : List (Nat × ε)
  log : List LogEntry
  deriving DecidableEq, Repr

/-- The empty repository state. -/
def emptyRepo {ε : Type} : RepoState ε := { events := [], log := [] }

/-- Modelled from the spec: `EventSourcedLog.trigger_event` assigns the
next position, `last_position + 1` starting at 1 (section 4.3); the log is
itself an event-sourced sequence, so with a gapless log this next position
is the log's length plus one, and the entry is appended at the end. -/
def logAppend (log : List LogEntry) (aggregate_id originator_version : Nat) :
    List LogEntry :=
  log ++ [{ position := log.length + 1
            aggregate_id := aggregate_id
            originator_version := originator_version }]

/-- `UnitRepository.save` from `src/src/domain/repositories.py`: append the
aggregate's pending events to the event table, then append one
notification-log entry for the unit. -/
def UnitRepository.save (st : RepoState UnitEvent) (u : Unit)
    (pending : List UnitEvent) : RepoState UnitEvent :=
  { events := st.events ++ pending.map (fun e => (u.id, e))
    log := logAppend st.log u.id u.version }

/-- `LeaseRepository.save` from `src/src/domain/repositories.py`. -/
def LeaseRepository.save (st : RepoState LeaseEvent) (l : Lease)
    (pending : List LeaseEvent) : RepoState LeaseEvent :=
  { events := st.events ++ pending.map (fun e => (l.id, e))
    log := logAppend st.log l.id l.version }

/-- The `create_lease` flow (GraphQL mutation over spec section 4.5):
`Lease.create` first; only on success is the new aggregate saved, which
appends its `Created` event and one notification-log entry.  On a
validation error the repository state is returned untouched. -/
def LeaseRepository.createAndSave (clk : Clock) (st : RepoState LeaseEvent)
    (id unit_id : Nat) (tenant_ids : List Nat) (start_date end_date : Date) :
    RepoState LeaseEvent × Except String Lease :=
  match Lease.create clk id unit_id tenant_ids start_date end_date with
  | Except.error e => (st, Except.error e)
  | Except.ok l =>
    (LeaseRepository.save st l
      [LeaseEvent.Created unit_id tenant_ids start_date end_date],
     Except.ok l)

/-- Does position `p` satisfy the optional range bounds `gt < p ≤ lte`? -/
def posInRange (gt lte : Option Nat) (p : Nat) : Bool :=
  (match gt with
   | some g => decide (g < p)
   | none => true) &&
  (match lte with
   | some b => decide (p ≤ b)
   | none => true)

/-- Modelled from the spec: `EventSourcedLog.get`, the range read behind
`get_units` and friends (section 4.3): keep the entries with
`gt < position ≤ lte`, order by position (the stored list is in append
order, hence ascending; descending order reverses it), and truncate to
`limit` when given. -/
def EventSourcedLog.get (entries : List LogEntry) (gt lte : Option Nat)
    (desc : Bool) (limit : Option Nat) : List LogEntry :=
  let filtered := entries.filter (fun e => posInRange gt lte e.position)
  let ordered := if desc then filtered.reverse else filtered
  match limit with
  | some n => ordered.take n
  | none => ordered

/-- A notification log holding entries at positions `1 .. n`, as produced
by `n` successful saves. -/
def logOfLen (n : Nat) : List LogEntry :=
  (List.range' 1 n).map (fun p =>
    { position := p, aggregate_id := p, originator_version := 1 })

/-- A sample clock. -/
def clk0 : Clock := ⟨0, 2024⟩

/-- A freshly created unit that has been marked unleasable. -/
def unleasableUnit : Unit :=
  (Unit.mark_as_unleasable clk0 (Unit.create clk0 1 ("a") none none).state).state

/-- The lease produced by `Lease.create` for unit 1, tenants `[2, 5]` and
the dates 2024-01-01 to 2024-12-31. -/
def lease0 : Lease :=
  Lease.init_body clk0 10 1 [2, 5] ⟨2024, 1, 1⟩ ⟨2024, 12, 31⟩

/-- C9: creating a `Unit` yields version 1, `is_leasable = true` and
`is_leased = false`, for every choice of address, amenities and `built_in`
arguments (and any clock). -/
theorem c9_unit_create_defaults (clk : Clock) (id : Nat) (address : String)
    (amenities : Option (List String)) (built_in : Option Int) :
    (Unit.create clk id address amenities built_in).state.version = 1 ∧
    (Unit.create clk id address amenities built_in).state.is_leasable = true ∧
    (Unit.create clk id address amenities built_in).state.is_leased = false ∧
    (Unit.create clk id address amenities built_in).error = none :=
  ⟨rfl, rfl, rfl, rfl⟩

/-- C2: on a unit whose `is_leasable` flag is false, `mark_as_leased` fails
with a validation error, leaves the whole state (hence also the version)
unchanged, and produces no event. -/
theorem c2_mark_as_leased_unleasable (clk : Clock) (u : Unit)
    (h : u.is_leasable = false) :
    (Unit.mark_as_leased clk u).error.isSome = true ∧
    (Unit.mark_as_leased clk u).state = u ∧
    (Unit.mark_as_leased clk u).events = [] := by
  simp [Unit.mark_as_leased, Unit.runCmd, Unit.applyEvent, h]

/-- Witness for C2 on a concrete unleasable unit. -/
theorem c2_witness :
    unleasableUnit.is_leasable = false ∧
    ((Unit.mark_as_leased clk0 unleasableUnit).error.isSome = true ∧
     (Unit.mark_as_leased clk0 unleasableUnit).state = unleasableUnit ∧
     (Unit.mark_as_leased clk0 unleasableUnit).events = []) :=
  ⟨by decide, c2_mark_as_leased_unleasable clk0 unleasableUnit (by decide)⟩

/-- C8: `update_built_in_year year` succeeds and sets `built_in` to `year`
exactly when `1800 ≤ year ≤ current year`; otherwise it fails with a
validation error. -/
theorem c8_update_built_in_year_iff (clk : Clock) (u : Unit) (year : Int) :
    (((Unit.update_built_in_year clk u year).error = none ∧
      (Unit.update_built_in_year clk u year).state.built_in = some year) ↔
      (1800 ≤ year ∧ year ≤ clk.year)) ∧
    ((Unit.update_built_in_year clk u year).error.isSome = true ↔
      ¬ (1800 ≤ year ∧ year ≤ clk.year)) := by
  by_cases h : 1800 ≤ year ∧ year ≤ clk.year <;>
    simp [Unit.update_built_in_year, Unit.runCmd, Unit.applyEvent, h]

/-- C10: `add_tenant` is idempotent on the derived `tenant_ids`: adding an
already-present tenant changes nothing, adding twice equals adding once,
and removing an absent tenant changes nothing. -/
theorem c10_add_tenant_idempotent (clk : Clock) (l : Lease) (t : Nat) :
    (t ∈ l.tenant_ids →
      (Lease.add_tenant clk l t).state.tenant_ids = l.tenant_ids) ∧
    ((Lease.add_tenant clk (Lease.add_tenant clk l t).state t).state.tenant_ids =
      (Lease.add_tenant clk l t).state.tenant_ids) ∧
    (t ∉ l.tenant_ids →
      (Lease.remove_tenant clk l t).state.tenant_ids = l.tenant_ids) := by
  refine ⟨fun h => ?_, ?_, fun h => ?_⟩
  · simp [Lease.add_tenant, Lease.runCmd, Lease.applyEvent, h]
  · by_cases h : t ∈ l.tenant_ids <;>
      simp [Lease.add_tenant, Lease.runCmd, Lease.applyEvent, h]
  · simp [Lease.remove_tenant, Lease.runCmd, Lease.applyEvent, h]

/-- Witness for C10 on a concrete lease: tenant 5 is present, tenant 7 is
absent. -/
theorem c10_witness :
    (5 ∈ lease0.tenant_ids ∧
     (Lease.add_tenant clk0 lease0 5).state.tenant_ids = lease0.tenant_ids) ∧
    (7 ∉ lease0.tenant_ids ∧
     (Lease.remove_tenant clk0 lease0 7).state.tenant_ids = lease0.tenant_ids) :=
  ⟨⟨by decide, (c10_add_tenant_idempotent clk0 lease0 5).1 (by decide)⟩,
   ⟨by decide, (c10_add_tenant_idempotent clk0 lease0 7).2.2 (by decide)⟩⟩

/-- C3 (code bug): a failing `update_dates` call raises the validation
error, produces no event and does not advance the version, but the
in-memory lease keeps the assigned dates, because the body assigns
`start_date`/`end_date` before checking them: here the failed call leaves
`start_date = 2025-01-01` although it was 2024-01-01 before the call. -/
theorem c3_update_dates_mutates_on_failure :
    Lease.create clk0 10 1 [2, 5] ⟨2024, 1, 1⟩ ⟨2024, 12, 31⟩ =
      Except.ok lease0 ∧
    (Lease.update_dates clk0 lease0 (some ⟨2025, 1, 1⟩) none).error.isSome = true ∧
    (Lease.update_dates clk0 lease0 (some ⟨2025, 1, 1⟩) none).events = [] ∧
    (Lease.update_dates clk0 lease0 (some ⟨2025, 1, 1⟩) none).state.version =
      lease0.version ∧
    lease0.start_date = ⟨2024, 1, 1⟩ ∧
    (Lease.update_dates clk0 lease0 (some ⟨2025, 1, 1⟩) none).state.start_date =
      ⟨2025, 1, 1⟩ := by
  refine ⟨rfl, ?_, ?_, ?_, ?_, ?_⟩ <;> decide

/-- C1 (code bug): replaying the same event stream under two different
wall clocks yields aggregates with the same identifier and version but
different derived state, because the transition bodies recompute
`created_at`/`signed_at` from `datetime.now()` at replay time. -/
theorem c1_replay_depends_on_clock :
    (Unit.replay ⟨100, 2024⟩ 1 [UnitEvent.Created ("a") none none]).map
        (fun u => u.version) =
      (Unit.replay ⟨200, 2024⟩ 1 [UnitEvent.Created ("a") none none]).map
        (fun u => u.version) ∧
    (Unit.replay ⟨100, 2024⟩ 1 [UnitEvent.Created ("a") none none]).map
        (fun u => u.created_at) = some 100 ∧
    (Unit.replay ⟨200, 2024⟩ 1 [UnitEvent.Created ("a") none none]).map
        (fun u => u.created_at) = some 200 ∧
    Unit.replay ⟨100, 2024⟩ 1 [UnitEvent.Created ("a") none none] ≠
      Unit.replay ⟨200, 2024⟩ 1 [UnitEvent.Created ("a") none none] ∧
    (Lease.replay ⟨100, 2024⟩ 1
        [LeaseEvent.Created 1 [2] ⟨2024, 1, 1⟩ ⟨2024, 12, 31⟩,
         LeaseEvent.SignedByTenant]).map (fun l => l.signed_at) =
      some (some 100) ∧
    (Lease.replay ⟨200, 2024⟩ 1
        [LeaseEvent.Created 1 [2] ⟨2024, 1, 1⟩ ⟨2024, 12, 31⟩,
         LeaseEvent.SignedByTenant]).map (fun l => l.signed_at) =
      some (some 200) := by
  decide

/-- C4: creating a lease whose start date is not strictly before its end
date fails with the validation error and leaves the repository state — the
event table and the notification log — untouched. -/
theorem c4_create_lease_invalid_dates (clk : Clock) (st : RepoState LeaseEvent)
    (id unit_id : Nat) (tenant_ids : List Nat) (sd ed : Date)
    (h : Date.bge sd ed = true) :
    LeaseRepository.createAndSave clk st id unit_id tenant_ids sd ed =
      (st, Except.error ("End date must be after start date")) := by
  simp [LeaseRepository.createAndSave, Lease.create, h]

/-- Witness for C4 with equal start and end dates (2024-01-01 twice). -/
theorem c4_witness :
    Date.bge ⟨2024, 1, 1⟩ ⟨2024, 1, 1⟩ = true ∧
    LeaseRepository.createAndSave clk0 emptyRepo 10 1 [2]
        ⟨2024, 1, 1⟩ ⟨2024, 1, 1⟩ =
      (emptyRepo, Except.error ("End date must be after start date")) :=
  ⟨by decide,
   c4_create_lease_invalid_dates clk0 emptyRepo 10 1 [2] ⟨2024, 1, 1⟩
     ⟨2024, 1, 1⟩ (by decide)⟩

/-- Folding saves onto any repository state extends its notification-log
positions by the next run of consecutive integers. -/
theorem foldl_save_log_positions (saves : List (Unit × List UnitEvent)) :
    ∀ st : RepoState UnitEvent,
      ((saves.foldl (fun st p => UnitRepository.save st p.1 p.2) st).log.map
        (fun e => e.position)) =
      st.log.map (fun e => e.position) ++
        List.range' (st.log.length + 1) saves.length := by
  induction saves with
  | nil => intro st; simp
  | cons p t ih =>
    intro st
    rw [List.foldl_cons, ih]
    simp [UnitRepository.save, logAppend, List.range'_succ]

/-- C5: starting from the empty log, `n` repository saves produce exactly
`n` notification-log entries whose positions are the contiguous run
`1 .. n`; every single save appends exactly one entry. -/
theorem c5_log_gapless (saves : List (Unit × List UnitEvent)) :
    ((saves.foldl (fun st p => UnitRepository.save st p.1 p.2)
        (emptyRepo : RepoState UnitEvent)).log.map (fun e => e.position)) =
      List.range' 1 saves.length ∧
    ∀ (st : RepoState UnitEvent) (u : Unit) (pending : List UnitEvent),
      (UnitRepository.save st u pending).log.length = st.log.length + 1 := by
  constructor
  · simpa [emptyRepo] using foldl_save_log_positions saves emptyRepo
  · intro st u pending
    simp [UnitRepository.save, logAppend]

/-- Filtering the canonical entries of `logOfLen` commutes with taking
positions. -/
theorem map_entry_filter (p : Nat → Bool) (l : List Nat) :
    ((l.map (fun q =>
        ({ position := q, aggregate_id := q, originator_version := 1 } :
          LogEntry))).filter (fun e => p e.position)).map
      (fun e => e.position) = l.filter p := by
  induction l with
  | nil => rfl
  | cons a t ih => by_cases h : p a <;> simp [List.filter_cons, h, ih]

/-- C6: a notification-log range read returns exactly the entries with
`gt < position ≤ lte` (optional bounds), ascending when `desc` is false and
descending (the reverse) when `desc` is true, truncated to `limit`; over
five entries, pages of two with `gt = 0, 2, 4` return `[1, 2]`, `[3, 4]`,
`[5]`, whose concatenation is the full duplicate-free ascending run. -/
theorem c6_pagination :
    (∀ (n : Nat) (gt lte : Option Nat),
      (EventSourcedLog.get (logOfLen n) gt lte false none).map
          (fun e => e.position) =
        (List.range' 1 n).filter (posInRange gt lte)) ∧
    (∀ (n : Nat) (gt lte : Option Nat),
      (EventSourcedLog.get (logOfLen n) gt lte true none).map
          (fun e => e.position) =
        ((List.range' 1 n).filter (posInRange gt lte)).reverse) ∧
    (∀ (entries : List LogEntry) (gt lte : Option Nat) (desc : Bool) (k : Nat),
      EventSourcedLog.get entries gt lte desc (some k) =
        (EventSourcedLog.get entries gt lte desc none).take k) ∧
    ((EventSourcedLog.get (logOfLen 5) (some 0) none false (some 2)).map
        (fun e => e.position) = [1, 2] ∧
     (EventSourcedLog.get (logOfLen 5) (some 2) none false (some 2)).map
        (fun e => e.position) = [3, 4] ∧
     (EventSourcedLog.get (logOfLen 5) (some 4) none false (some 2)).map
        (fun e => e.position) = [5] ∧
     ([1, 2] ++ [3, 4] ++ [5] : List Nat) = List.range' 1 5 ∧
     ([1, 2] ++ [3, 4] ++ [5] : List Nat).Nodup) := by
  refine ⟨?_, ?_, ?_, by decide, by decide, by decide, by decide, by decide⟩
  · intro n gt lte
    simp [EventSourcedLog.get, logOfLen, map_entry_filter]
  · intro n gt lte
    simp [EventSourcedLog.get, logOfLen, ← map_entry_filter (posInRange gt lte)]
  · intro entries gt lte desc k
    simp [EventSourcedLog.get]

/-- A decimal digit renders to a digit character whose value is itself. -/
theorem digitChar_spec {d : Nat} (h : d < 10) :
    (digitChar d).isDigit = true ∧ digitVal (digitChar d) = d := by
  interval_cases d <;> exact ⟨by decide, by decide⟩

/-- A run of zero digits has value zero. -/
theorem ofDigits_replicate_zero (b k : Nat) :
    Nat.ofDigits b (List.replicate k 0) = 0 := by
  induction k with
  | zero => rfl
  | succ n ih => simp [List.replicate_succ, Nat.ofDigits_cons, ih]

/-- A number below `10 ^ w` has at most `w` decimal digits. -/
theorem digits_length_le {w n : Nat} (h : n < 10 ^ w) :
    (Nat.digits 10 n).length ≤ w := by
  rcases Nat.eq_zero_or_pos n with hn | hn
  · subst hn; simp
  · by_contra hgt
    push_neg at hgt
    have h1 : 10 ^ (Nat.digits 10 n).length ≤ 10 * n :=
      Nat.base_pow_length_digits_le 10 n (by norm_num) (Nat.pos_iff_ne_zero.mp hn)
    have h2 : 10 ^ (w + 1) ≤ 10 ^ (Nat.digits 10 n).length :=
      Nat.pow_le_pow_right (by norm_num) hgt
    have h3 : 10 * 10 ^ w ≤ 10 * n := by
      calc 10 * 10 ^ w = 10 ^ (w + 1) := by ring
        _ ≤ 10 ^ (Nat.digits 10 n).length := h2
        _ ≤ 10 * n := h1
    have h4 : 10 ^ w ≤ n := Nat.le_of_mul_le_mul_left h3 (by norm_num)
    omega

/-- The padded rendering of `n < 10 ^ w` has exactly width `w`. -/
theorem padNum_length {w n : Nat} (h : n < 10 ^ w) :
    (padNum w n).length = w := by
  have hle : (Nat.digits 10 n).length ≤ w := digits_length_le h
  simp [padNum, natChars]
  omega

/-- Parsing the zero-padded decimal rendering of `n < 10 ^ w` (of positive
width) recovers `n`. -/
theorem charsToNat_padNum {w n : Nat} (hw : 0 < w) (h : n < 10 ^ w) :
    charsToNat (padNum w n) = some n := by
  have hne : padNum w n ≠ [] := by
    intro hnil
    have := padNum_length h
    rw [hnil] at this
    simp at this
    omega
  have hdig : (padNum w n).all (fun c => c.isDigit) = true := by
    rw [List.all_eq_true]
    intro c hc
    rcases List.mem_append.mp hc with hrep | hch
    · have := List.eq_of_mem_replicate hrep
      subst this; decide
    · rcases List.mem_reverse.mp hch with hmem
      rcases List.mem_map.mp hmem with ⟨d, hd, rfl⟩
      exact (digitChar_spec (Nat.digits_lt_base (by norm_num) hd)).1
  have hmapval : (padNum w n).map digitVal =
      List.replicate (w - (natChars n).length) 0 ++ (Nat.digits 10 n).reverse := by
    have hch : (natChars n).map digitVal = (Nat.digits 10 n).reverse := by
      rw [natChars, ← List.map_reverse, List.map_map]
      have : ∀ d ∈ (Nat.digits 10 n).reverse, (digitVal ∘ digitChar) d = id d := by
        intro d hd
        exact (digitChar_spec (Nat.digits_lt_base (by norm_num)
          (List.mem_reverse.mp hd))).2
      rw [List.map_congr_left this, List.map_id]
    simp [padNum, List.map_replicate, hch]
    exact Or.inr rfl
  have hval : Nat.ofDigits 10 (((padNum w n).map digitVal).reverse) = n := by
    rw [hmapval, List.reverse_append, List.reverse_reverse,
      List.reverse_replicate, Nat.ofDigits_append, Nat.ofDigits_digits,
      ofDigits_replicate_zero]
    ring
  rw [charsToNat, if_pos ⟨hne, hdig⟩, hval]

/-- Every month length is at most 31 days. -/
theorem daysInMonth_le (y m : Nat) : daysInMonth y m ≤ 31 := by
  unfold daysInMonth
  split
  · split <;> omega
  · split <;> omega

/-- A list of length four is a four-element literal. -/
theorem list_four {α : Type} (l : List α) (h : l.length = 4) :
    ∃ a b c d, l = [a, b, c, d] := by
  rcases l with _ | ⟨a, _ | ⟨b, _ | ⟨c, _ | ⟨d, _ | ⟨e, t⟩⟩⟩⟩⟩ <;> simp at h
  exact ⟨a, b, c, d, rfl⟩

/-- A list of length two is a two-element literal. -/
theorem list_two {α : Type} (l : List α) (h : l.length = 2) :
    ∃ a b, l = [a, b] := by
  rcases l with _ | ⟨a, _ | ⟨b, _ | ⟨c, t⟩⟩⟩ <;> simp at h
  exact ⟨a, b, rfl⟩

/-- C7: the date codec round-trips — decoding the ISO-format encoding of
every valid calendar date returns the original date. -/
theorem c7_date_codec_roundtrip (d : Date)
    (h : dateValid d.year d.month d.day = true) :
    DateTranscoding.decode (DateTranscoding.encode d) = some d := by
  have hv := h
  rw [dateValid, decide_eq_true_eq] at hv
  obtain ⟨h1, h2, h3, h4, h5, h6⟩ := hv
  have hy : d.year < 10 ^ 4 := by norm_num; omega
  have hm : d.month < 10 ^ 2 := by norm_num; omega
  have hdd : d.day < 10 ^ 2 := by
    have := daysInMonth_le d.year d.month
    norm_num
    omega
  obtain ⟨a, b, c, d4, hY⟩ := list_four (padNum 4 d.year) (padNum_length hy)
  obtain ⟨e, f, hM⟩ := list_two (padNum 2 d.month) (padNum_length hm)
  obtain ⟨g, h8, hD⟩ := list_two (padNum 2 d.day) (padNum_length hdd)
  have hcY : charsToNat [a, b, c, d4] = some d.year := by
    rw [← hY]; exact charsToNat_padNum (by norm_num) hy
  have hcM : charsToNat [e, f] = some d.month := by
    rw [← hM]; exact charsToNat_padNum (by norm_num) hm
  have hcD : charsToNat [g, h8] = some d.day := by
    rw [← hD]; exact charsToNat_padNum (by norm_num) hdd
  have henc : (DateTranscoding.encode d).data =
      [a, b, c, d4, '-', e, f, '-', g, h8] := by
    simp [DateTranscoding.encode, hY, hM, hD]
  rw [DateTranscoding.decode, henc]
  simp [hcY, hcM, hcD, h]

/-- Witness for C7 at the leap-day date 2024-02-29. -/
theorem c7_witness :
    dateValid 2024 2 29 = true ∧
    DateTranscoding.decode (DateTranscoding.encode ⟨2024, 2, 29⟩) =
      some ⟨2024, 2, 29⟩ :=
  ⟨by decide, c7_date_codec_roundtrip ⟨2024, 2, 29⟩ (by decide)⟩

end ES
